import Mathlib

/-!
Verification of the vllm-studio controller against its specification.

The Python sources are shallowly embedded: strings are `List Char`,
command lines are `List (List Char)`, machine floats that only ever get
added are modelled as rationals, and the effectful launch / metrics
loops are modelled as pure functions over explicit environment records
that carry the values the code would have observed (process existence,
health-probe answers, scraped counters, the cancel flag at each tick).
-/

namespace VllmStudio

/-! ### Shared string helpers (Python `str` operations on `List Char`) -/

/-- Python `pat == s[:len(pat)]`: `pat` starts the list `s`. -/
def startsWithL : List Char → List Char → Bool
  | [], _ => true
  | _ :: _, [] => false
  | p :: ps, c :: cs => p == c && startsWithL ps cs

/-- Python `pat in s`: substring containment. -/
def containsSub (pat : List Char) : List Char → Bool
  | [] => startsWithL pat []
  | c :: rest => startsWithL pat (c :: rest) || containsSub pat rest

/-- Python whitespace for `str.strip` / `\s`. -/
def isPySpace (c : Char) : Bool :=
  c == ' ' || c == '\t' || c == '\n' || c == '\r' || c == '\x0b' || c == '\x0c'

/-- Python `s.strip()`. -/
def pyStrip (s : List Char) : List Char :=
  ((s.dropWhile isPySpace).reverse.dropWhile isPySpace).reverse

/-- Python `s[-n:]` for `n > 0`: the last at-most-`n` characters. -/
def lastChars (n : Nat) (s : List Char) : List Char := s.drop (s.length - n)

/-- Python `int(p)` on a trimmed token: optional sign, then decimal digits. -/
def pyParseInt (s : List Char) : Option Int :=
  let t := pyStrip s
  let core : List Char → Option Nat := fun ds =>
    if ds.isEmpty then none
    else if ds.all (fun c => c.isDigit) then
      some (ds.foldl (fun acc c => acc * 10 + (c.toNat - '0'.toNat)) 0)
    else none
  match t with
  | '-' :: rest => (core rest).map (fun n => -(n : Int))
  | '+' :: rest => (core rest).map (fun n => (n : Int))
  | _ => (core t).map (fun n => (n : Int))

/-! ### C1 — identity of the `_switch_lock` mutexes

`src/controller/routes/lifecycle.py` line 25, `src/controller/routes/proxy.py`
line 25 and `src/controller/app.py` line 48 each evaluate `asyncio.Lock()` at
module import, producing three distinct lock objects.  The embedding records,
for every operation that may spawn or kill the backend, which of those three
objects its `async with` / `acquire()` names. -/

/-- The three module-level `asyncio.Lock()` objects named `_switch_lock`. -/
inductive LockId where
  | lifecycleRoutes
  | proxyRoutes
  | appMain
deriving DecidableEq

/-- The operations that evict or spawn the backend process, one constructor
per handler in the source: the routes-package `launch` / `evict` /
`_ensure_model_running` and the `app.py` `launch` / `evict` /
`_ensure_model_running`. -/
inductive SwitchOp where
  | launchRoutes
  | evictRoutes
  | ensureRunningRoutes
  | launchApp
  | evictApp
  | ensureRunningApp
deriving DecidableEq

/-- Which `_switch_lock` object each operation acquires:
`routes/lifecycle.py` `launch` (line 127) and `evict` (line 267) use the
lock of lifecycle.py line 25; `routes/proxy.py` `_ensure_model_running`
(line 69) uses the lock of proxy.py line 25; the `app.py` `launch`
(line 698), `evict` (line 793) and `_ensure_model_running` (line 1402)
use the lock of app.py line 48. -/
def switchLockOf : SwitchOp → LockId
  | .launchRoutes => .lifecycleRoutes
  | .evictRoutes => .lifecycleRoutes
  | .ensureRunningRoutes => .proxyRoutes
  | .launchApp => .appMain
  | .evictApp => .appMain
  | .ensureRunningApp => .appMain

/-! ### C3 — event ids -/

/-- `events.py` line 25: an `Event`'s `id` defaults to
`str(int(datetime.utcnow().timestamp() * 1000))`, i.e. the wall-clock
millisecond count at event construction (the source stores its decimal
string; we keep the number).  Nothing in `EventManager.publish` writes
to `event.id`. -/
def eventId (clockMs : Nat) : Nat := clockMs

/-- Queue capacity of a subscriber: `asyncio.Queue(maxsize=100)`
(`events.py` line 63). -/
def queueCap : Nat := 100

/-- One channel of `EventManager`: the per-subscriber bounded queues
(contents abstracted to the event ids they hold) and `_event_count`. -/
structure BusState where
  queues : List (List Nat)
  eventCount : Nat
deriving DecidableEq

/-- `EventManager.publish` (`events.py` lines 86-116) for one channel: with
no subscribers the call returns at once; otherwise `_event_count` is
incremented and the event is enqueued on every subscriber queue with room,
while a full queue drops the event and is removed as dead. -/
def publish (st : BusState) (id : Nat) : BusState :=
  if st.queues.isEmpty then st
  else
    { queues := st.queues.filterMap
        (fun q => if q.length < queueCap then some (q ++ [id]) else none),
      eventCount := st.eventCount + 1 }

/-- Publishing a series of events whose construction clocks (in ms) are
`clocks`, in order. -/
def publishClocks (st : BusState) (clocks : List Nat) : BusState :=
  clocks.foldl (fun s c => publish s (eventId c)) st

theorem publishClocks_single_queue (clocks : List Nat) :
    ∀ (q : List Nat) (n : Nat), q.length + clocks.length ≤ queueCap →
      publishClocks ⟨[q], n⟩ clocks = ⟨[q ++ clocks.map eventId], n + clocks.length⟩ := by
  induction clocks with
  | nil => intro q n _; simp [publishClocks]
  | cons c cs ih =>
      intro q n h
      have hq : q.length < queueCap := by
        have := h
        simp [List.length_cons] at this
        omega
      have step : publish ⟨[q], n⟩ (eventId c) = ⟨[q ++ [eventId c]], n + 1⟩ := by
        simp [publish, hq]
      have hlen : (q ++ [eventId c]).length + cs.length ≤ queueCap := by
        simp [List.length_append] at h ⊢
        omega
      calc publishClocks ⟨[q], n⟩ (c :: cs)
          = publishClocks ⟨[q ++ [eventId c]], n + 1⟩ cs := by
            simp [publishClocks, step]
        _ = ⟨[(q ++ [eventId c]) ++ cs.map eventId], (n + 1) + cs.length⟩ := ih _ _ hlen
        _ = ⟨[q ++ (c :: cs).map eventId], n + (c :: cs).length⟩ := by
            simp [eventId, List.append_assoc]
            omega

/-- C3, as stated, is false: two events constructed in the same wall-clock
millisecond (clock 1000 twice) reach a never-full subscriber queue with
equal ids, so the received id sequence is not strictly increasing. -/
theorem C3_event_id_counterexample :
    (publishClocks ⟨[[]], 0⟩ [1000, 1000]).queues = [[1000, 1000]] ∧
      ¬ List.Chain' (· < ·) [1000, 1000] := by
  constructor
  · rfl
  · simp [List.chain'_cons]

/-- C3 (amended): an event's id is the wall-clock millisecond count at
event construction, not a counter assigned by the bus (`publish` only
increments the subscriber-invisible `_event_count`).  A subscriber that
never experiences a full-queue drop receives the ids in publish order, so
when the construction clocks are non-decreasing the received id sequence
is non-decreasing — but only non-strictly: same-millisecond events share
an id. -/
theorem C3_event_id_amended (clocks : List Nat)
    (hmono : List.Chain' (· ≤ ·) clocks) (hfit : clocks.length ≤ queueCap) :
    (publishClocks ⟨[[]], 0⟩ clocks).queues = [clocks.map eventId] ∧
      List.Chain' (· ≤ ·) (clocks.map eventId) := by
  constructor
  · have h := publishClocks_single_queue clocks [] 0
      (by simp only [List.length_nil, Nat.zero_add]; exact hfit)
    rw [h]
    simp
  · have hid : clocks.map eventId = clocks := List.map_id'' (fun _ => rfl) clocks
    rw [hid]; exact hmono

theorem C3_event_id_amended_witness :
    (publishClocks ⟨[[]], 0⟩ [5, 5, 7]).queues = [[5, 5, 7].map eventId] ∧
      List.Chain' (· ≤ ·) ([5, 5, 7].map eventId) :=
  C3_event_id_amended [5, 5, 7]
    (by simp [List.chain'_cons]) (by simp [queueCap])

/-- C1, as stated, is false: the routes-package `launch`
(`routes/lifecycle.py`) and the routes-package chat auto-switch
(`routes/proxy.py` `_ensure_model_running`) acquire two different
module-level `_switch_lock` objects, not one and the same mutex. -/
theorem C1_switch_mutex_counterexample :
    switchLockOf SwitchOp.launchRoutes ≠ switchLockOf SwitchOp.ensureRunningRoutes := by
  decide

/-- C1 (amended): within `app.py`, Launch, Evict and the chat auto-switch
all acquire the single app-level `_switch_lock`; the routes-package
Launch and Evict share `routes/lifecycle.py`'s lock; but the
routes-package auto-switch acquires `routes/proxy.py`'s own lock, which
is distinct both from the lifecycle lock and from the app lock, so the
routes-package EnsureRunning and Launch do not contend on the same
mutex. -/
theorem C1_switch_mutex_amended :
    switchLockOf SwitchOp.launchApp = switchLockOf SwitchOp.evictApp ∧
    switchLockOf SwitchOp.launchApp = switchLockOf SwitchOp.ensureRunningApp ∧
    switchLockOf SwitchOp.launchRoutes = switchLockOf SwitchOp.evictRoutes ∧
    switchLockOf SwitchOp.ensureRunningRoutes ≠ switchLockOf SwitchOp.launchRoutes ∧
    switchLockOf SwitchOp.ensureRunningRoutes ≠ switchLockOf SwitchOp.launchApp := by
  decide

/-! ### C8 — `launch_model` (`process.py` lines 204-234) -/

/-- What `launch_model` observes from the operating system: whether
`subprocess.Popen` (or anything else in the `try`) raised (`spawnError`),
the child pid on success, whether `proc.poll()` reported an exit after the
3-second sleep, and the log file's contents. -/
structure SpawnEnv where
  spawnError : Option (List Char)
  pid : Nat
  exitedWithin3s : Bool
  logExists : Bool
  logContent : List Char

/-- The per-recipe log path `f"/tmp/vllm_{recipe.id}.log"`. -/
def logPath (recipeId : List Char) : List Char :=
  "/tmp/vllm_".data ++ recipeId ++ ".log".data

/-- `launch_model(recipe)` → `(success, pid, message)`:
on an exception, `(False, None, str(e))`; if the child exited within the
3-second sleep, `(False, None, "Process exited early: " + last 500 chars
of the log)` (empty tail when the log file is missing); otherwise
`(True, proc.pid, str(log_file))`. -/
def launchModel (recipeId : List Char) (env : SpawnEnv) :
    Bool × Option Nat × List Char :=
  match env.spawnError with
  | some e => (false, none, e)
  | none =>
    if env.exitedWithin3s then
      (false, none, "Process exited early: ".data ++
        (if env.logExists then lastChars 500 env.logContent else []))
    else
      (true, some env.pid, logPath recipeId)

/-- C8: when `Popen` itself succeeded, a child that has exited by the
3-second check yields a failure with no pid whose message is
"Process exited early: " followed by the last at-most-500 characters of
the log, and a child still alive yields success with the pid and the log
path. -/
theorem C8_spawn_early_exit (recipeId : List Char) (env : SpawnEnv)
    (hok : env.spawnError = none) (hlog : env.logExists = true) :
    (env.exitedWithin3s = true →
      launchModel recipeId env =
        (false, none, "Process exited early: ".data ++ lastChars 500 env.logContent) ∧
      (lastChars 500 env.logContent).length ≤ 500) ∧
    (env.exitedWithin3s = false →
      launchModel recipeId env = (true, some env.pid, logPath recipeId)) := by
  constructor
  · intro hexit
    constructor
    · simp [launchModel, hok, hexit, hlog]
    · simp only [lastChars, List.length_drop]
      omega
  · intro hexit
    simp [launchModel, hok, hexit]

theorem C8_spawn_early_exit_witness :
    ((⟨none, 4242, true, true, "boot log tail".data⟩ : SpawnEnv).exitedWithin3s = true →
      launchModel "r1".data ⟨none, 4242, true, true, "boot log tail".data⟩ =
        (false, none, "Process exited early: ".data ++
          lastChars 500 "boot log tail".data) ∧
      (lastChars 500 "boot log tail".data).length ≤ 500) ∧
    ((⟨none, 4242, true, true, "boot log tail".data⟩ : SpawnEnv).exitedWithin3s = false →
      launchModel "r1".data ⟨none, 4242, true, true, "boot log tail".data⟩ =
        (true, some 4242, logPath "r1".data)) :=
  C8_spawn_early_exit "r1".data ⟨none, 4242, true, true, "boot log tail".data⟩ rfl rfl

/-! ### C10 — `find_inference_process` and `_extract_flag`
(`process.py` lines 18-23 and 79-157) -/

/-- The backend classifications of `_is_inference_process`. -/
inductive BackendKind where
  | vllm
  | sglang
  | tabbyapi
deriving DecidableEq

/-- `_extract_flag(cmdline, flag)`: the token following the first
stand-alone occurrence of `flag`, if any. -/
def extractFlag : List (List Char) → List Char → Option (List Char)
  | [], _ => none
  | a :: rest, flag => if a = flag then rest.head? else extractFlag rest flag

/-- `_is_inference_process(cmdline)` (`process.py` lines 61-76):
classify by substring tests on the space-joined command line. -/
def isInferenceProcess (cmdline : List (List Char)) : Option BackendKind :=
  if cmdline.isEmpty then none
  else
    let joined := List.intercalate " ".data cmdline
    if containsSub "vllm.entrypoints.openai.api_server".data joined then some .vllm
    else if containsSub "vllm".data joined && containsSub "serve".data joined then some .vllm
    else if containsSub "sglang.launch_server".data joined then some .sglang
    else if containsSub "tabbyAPI".data joined ||
        (containsSub "main.py".data joined && containsSub "--config".data joined) then
      some .tabbyapi
    else none

/-- The `cmdline.index("serve")` fallback of `find_inference_process`
(lines 99-105): the token after the first `"serve"`, provided it exists
and does not start with `-`. -/
def afterServe : List (List Char) → Option (List Char)
  | [] => none
  | a :: rest =>
    if a = "serve".data then
      match rest.head? with
      | some nxt => if startsWithL "-".data nxt then none else some nxt
      | none => none
    else afterServe rest

/-- One row of `psutil.process_iter(["pid", "cmdline"])`. -/
structure ProcEntry where
  pid : Nat
  cmdline : List (List Char)

/-- The record `find_inference_process` returns. -/
structure ProcessInfoM where
  pid : Nat
  backend : BackendKind
  modelPath : Option (List Char)
  port : Nat
  servedModelName : Option (List Char)
deriving DecidableEq

/-- The field extraction of `find_inference_process` once a process has
passed the backend and port filters.  The TabbyAPI branch that queries
`/v1/models` over HTTP is modelled in its failure mode (`except: pass`),
which leaves the hard-coded `"tabbyapi:unknown"` / `"GLM-4.7"` fallbacks;
this affects only the name fields of the returned record, never whether
a record is returned. -/
def buildProcessInfo (pid : Nat) (cmdline : List (List Char))
    (backend : BackendKind) (port : Nat) : ProcessInfoM :=
  let modelPath :=
    ((extractFlag cmdline "--model".data).orElse
      (fun _ => extractFlag cmdline "--model-path".data)).orElse
      (fun _ => afterServe cmdline)
  let served := extractFlag cmdline "--served-model-name".data
  if backend = .tabbyapi ∧ modelPath = none then
    ⟨pid, backend, some "tabbyapi:unknown".data, port, some "GLM-4.7".data⟩
  else
    ⟨pid, backend, modelPath, port, served⟩

/-- `find_inference_process(port)` (`process.py` lines 79-157) over an
explicit process table: skip processes that are not a known backend;
TabbyAPI matches only when the configured port is 8000 (it takes no
`--port` flag); every other backend must carry a stand-alone `--port`
token whose successor parses to `port` (a missing flag, a non-integer
value — `ValueError` — or a different port all skip the process). -/
def findInferenceProcess : List ProcEntry → Nat → Option ProcessInfoM
  | [], _ => none
  | e :: rest, port =>
    match isInferenceProcess e.cmdline with
    | none => findInferenceProcess rest port
    | some b =>
      if b = .tabbyapi then
        if port = 8000 then some (buildProcessInfo e.pid e.cmdline b port)
        else findInferenceProcess rest port
      else
        match extractFlag e.cmdline "--port".data with
        | none => findInferenceProcess rest port
        | some p =>
          match pyParseInt p with
          | none => findInferenceProcess rest port
          | some n =>
            if n = (port : Int) then some (buildProcessInfo e.pid e.cmdline b port)
            else findInferenceProcess rest port

theorem extractFlag_eq_none_of_not_mem (cmdline : List (List Char))
    (flag : List Char) (h : flag ∉ cmdline) : extractFlag cmdline flag = none := by
  induction cmdline with
  | nil => rfl
  | cons a rest ih =>
      have hne : a ≠ flag := fun hEq => h (hEq ▸ List.mem_cons_self a rest)
      have hrest : flag ∉ rest := fun hm => h (List.mem_cons_of_mem a hm)
      simp [extractFlag, hne, ih hrest]

/-- C10: a non-TabbyAPI backend process whose command line carries the
port only as the fused token `--port=<n>` is never returned by
`find_inference_process(n)`: the flag extraction looks exclusively for a
stand-alone `--port` token followed by the value. -/
theorem C10_fused_port_token_not_found (e : ProcEntry) (port : Nat) (b : BackendKind)
    (hb : isInferenceProcess e.cmdline = some b)
    (hnt : b ≠ BackendKind.tabbyapi)
    (hsep : "--port".data ∉ e.cmdline)
    (_htok : ("--port=".data ++ (toString port).data) ∈ e.cmdline) :
    findInferenceProcess [e] port = none := by
  have hext : extractFlag e.cmdline "--port".data = none :=
    extractFlag_eq_none_of_not_mem _ _ hsep
  simp [findInferenceProcess, hb, hext, hnt]

theorem C10_fused_port_token_not_found_witness :
    isInferenceProcess
        ["python".data, "-m".data, "vllm.entrypoints.openai.api_server".data,
          "--model".data, "/models/foo".data, "--port=8000".data] = some BackendKind.vllm ∧
      findInferenceProcess
        [⟨77, ["python".data, "-m".data, "vllm.entrypoints.openai.api_server".data,
          "--model".data, "/models/foo".data, "--port=8000".data]⟩] 8000 = none := by
  refine ⟨by decide, ?_⟩
  exact C10_fused_port_token_not_found
    ⟨77, ["python".data, "-m".data, "vllm.entrypoints.openai.api_server".data,
      "--model".data, "/models/foo".data, "--port=8000".data]⟩ 8000 BackendKind.vllm
    (by decide) (by decide) (by decide) (by decide)

/-! ### C4 — the chat auto-switch `_ensure_model_running`

Two implementations exist: `routes/proxy.py` lines 34-115 (case-insensitive
matching) and `app.py` lines 1365-1452 (strict string equality; this is the
module that actually serves `/v1/chat/completions` — the routes package is
never mounted).  Both are embedded.  The network effects (evict, launch,
readiness wait) are modelled in their success mode: the embedding tracks
whether an evict+spawn was performed and what served name the new backend
advertises afterwards; launch failures return an error string and are
orthogonal to the matching/switch-count behaviour the claim is about. -/

/-- Python `s.lower()` (ASCII model). -/
def pyLower (s : List Char) : List Char := s.map Char.toLower

/-- The recipe fields the auto-switch consults. -/
structure RecipeM where
  id : List Char
  servedModelName : Option (List Char)
deriving DecidableEq

/-- `routes/proxy.py` `_find_recipe_by_model` (lines 34-43): first recipe
whose served name (or empty string if unset) or id equals the requested
name case-insensitively; `None` for an empty request. -/
def findRecipeByModelProxy (recipes : List RecipeM) (model : List Char) :
    Option RecipeM :=
  if model.isEmpty then none
  else
    recipes.find? (fun r =>
      (pyLower (r.servedModelName.getD []) == pyLower model) ||
        (pyLower r.id == pyLower model))

/-- `app.py` `_find_recipe_by_model` (lines 1365-1373): strict equality
against served name or id. -/
def findRecipeByModelApp (recipes : List RecipeM) (model : List Char) :
    Option RecipeM :=
  recipes.find? (fun r => (r.servedModelName == some model) || (r.id == model))

/-- The backend slot as the auto-switch observes it: the served model name
of the running inference process, `none` when no process is running or it
advertises no `--served-model-name`. -/
structure SwitchWorld where
  current : Option (List Char)
deriving DecidableEq

/-- The truthiness test `if current_name and current_name.lower() ==
requested_lower` of `routes/proxy.py` lines 62 and 72. -/
def currentMatchesCI (current : Option (List Char)) (modelLower : List Char) : Bool :=
  match current with
  | some c => !c.isEmpty && (pyLower c == modelLower)
  | none => false

/-- The served name the backend advertises after a successful launch of
`r`: `build_vllm_command`/`build_sglang_command` pass
`--served-model-name` only when `recipe.served_model_name` is truthy
(`backends.py` lines 128-129 and 176-177), and `find_inference_process`
reads it back from the command line. -/
def launchedServedName (r : RecipeM) : Option (List Char) :=
  match r.servedModelName with
  | some s => if s.isEmpty then none else some s
  | none => none

/-- `routes/proxy.py` `_ensure_model_running` (lines 46-115), success mode:
returns the world after the call, whether an evict+launch was performed,
and the error result (`none` = ready). -/
def ensureModelRunningProxy (recipes : List RecipeM) (model : List Char)
    (w : SwitchWorld) : SwitchWorld × Bool × Option (List Char) :=
  if model.isEmpty then (w, false, none)
  else
    let modelLower := pyLower model
    if currentMatchesCI w.current modelLower then (w, false, none)
    else
      match findRecipeByModelProxy recipes model with
      | none => (w, false, none)
      | some r =>
        if currentMatchesCI w.current modelLower then (w, false, none)
        else ({ current := launchedServedName r }, true, none)

/-- `app.py` `_ensure_model_running` (lines 1376-1452), success mode: the
current-backend check is `current.served_model_name == requested_model`
(strict), and the recipe lookup is the strict `_find_recipe_by_model`. -/
def ensureModelRunningApp (recipes : List RecipeM) (model : List Char)
    (w : SwitchWorld) : SwitchWorld × Bool × Option (List Char) :=
  if model.isEmpty then (w, false, none)
  else if w.current == some model then (w, false, none)
  else
    match findRecipeByModelApp recipes model with
    | none => (w, false, none)
    | some r =>
      if w.current == some model then (w, false, none)
      else ({ current := launchedServedName r }, true, none)

/-- `1` when a switch (evict+launch) happened, else `0`. -/
def switchCount (res : SwitchWorld × Bool × Option (List Char)) : Nat :=
  if res.2.1 then 1 else 0

/-- Two serial auto-switch calls for the same model: total switches. -/
def twoSerialSwitches (ensure : SwitchWorld → SwitchWorld × Bool × Option (List Char))
    (w : SwitchWorld) : Nat :=
  let r1 := ensure w
  let r2 := ensure r1.1
  switchCount r1 + switchCount r2

/-- C4, as stated, is false on both counts.  (1) The `app.py`
`_ensure_model_running` that serves the chat endpoint matches strictly:
with the backend already serving `FOO` and a recipe `⟨foo, FOO⟩`, a
request for `foo` evicts and relaunches even though the requested model
is already running under a case variant.  (2) Even the case-insensitive
`routes/proxy.py` variant performs a switch on every one of two
back-to-back serial requests when the request matches the recipe only by
id (`r1`) while the backend advertises the recipe's served name (`foo`). -/
theorem C4_ensure_running_counterexample :
    (ensureModelRunningApp [⟨"foo".data, some "FOO".data⟩] "foo".data
        ⟨some "FOO".data⟩ =
      (⟨some "FOO".data⟩, true, none)) ∧
    twoSerialSwitches
        (ensureModelRunningProxy [⟨"r1".data, some "foo".data⟩] "r1".data)
        ⟨some "foo".data⟩ = 2 := by
  constructor
  · rfl
  · rfl

/-- C4 (amended): the `routes/proxy.py` EnsureRunning matches the request
case-insensitively against the current backend's served name and against
recipe served-name or id, and when the current backend already serves the
requested name (case-insensitively, non-empty) it returns ready without
evicting or spawning; two back-to-back serial requests for the same model
perform at most one switch provided the matched recipe's post-launch
served name matches the requested name case-insensitively (a request that
matches a recipe only by id re-switches on every call, and the `app.py`
variant additionally requires exact case). -/
theorem C4_ensure_running_amended (recipes : List RecipeM) (model : List Char)
    (w : SwitchWorld)
    (hserved : ∀ r, findRecipeByModelProxy recipes model = some r →
      currentMatchesCI (launchedServedName r) (pyLower model) = true) :
    (∀ c, w.current = some c → c.isEmpty = false →
      pyLower c = pyLower model →
      ensureModelRunningProxy recipes model w = (w, false, none)) ∧
    twoSerialSwitches (ensureModelRunningProxy recipes model) w ≤ 1 ∧
    (model.isEmpty = false → w.current = some model →
      ensureModelRunningApp recipes model w = (w, false, none)) := by
  refine ⟨?_, ?_, ?_⟩
  · intro c hc hne hlow
    have hcm : currentMatchesCI w.current (pyLower model) = true := by
      simp [currentMatchesCI, hc, hne, hlow]
    have hnonempty : model.isEmpty = false := by
      by_contra h
      have h' : model.isEmpty = true := by
        cases hmodel : model.isEmpty
        · exact absurd hmodel h
        · rfl
      have : model = [] := List.isEmpty_iff.mp h'
      subst this
      have : pyLower c = [] := hlow
      have hcnil : c = [] := by
        cases c with
        | nil => rfl
        | cons a as => simp [pyLower] at this
      rw [hcnil] at hne
      simp [List.isEmpty] at hne
    simp [ensureModelRunningProxy, hnonempty, hcm]
  · by_cases hempty : model.isEmpty
    · simp [twoSerialSwitches, ensureModelRunningProxy, hempty, switchCount]
    · have hempty' : model.isEmpty = false := by
        cases h : model.isEmpty
        · rfl
        · exact absurd h hempty
      by_cases hcm : currentMatchesCI w.current (pyLower model) = true
      · simp [twoSerialSwitches, ensureModelRunningProxy, hempty', hcm, switchCount]
      · have hcm' : currentMatchesCI w.current (pyLower model) = false := by
          cases h : currentMatchesCI w.current (pyLower model)
          · rfl
          · exact absurd h hcm
        cases hfind : findRecipeByModelProxy recipes model with
        | none =>
            simp [twoSerialSwitches, ensureModelRunningProxy, hempty', hcm', hfind,
              switchCount]
        | some r =>
            have hmatch := hserved r hfind
            simp [twoSerialSwitches, ensureModelRunningProxy, hempty', hcm', hfind,
              hmatch, switchCount]
  · intro hne hcur
    simp [ensureModelRunningApp, hne, hcur]

theorem C4_ensure_running_amended_witness :
    ((∀ c, (⟨some "MiXed".data⟩ : SwitchWorld).current = some c → c.isEmpty = false →
      pyLower c = pyLower "mixed".data →
      ensureModelRunningProxy [⟨"r1".data, some "MiXed".data⟩] "mixed".data
        ⟨some "MiXed".data⟩ = (⟨some "MiXed".data⟩, false, none)) ∧
    twoSerialSwitches
      (ensureModelRunningProxy [⟨"r1".data, some "MiXed".data⟩] "mixed".data)
      ⟨some "MiXed".data⟩ ≤ 1 ∧
    (("mixed".data : List Char).isEmpty = false →
      (⟨some "MiXed".data⟩ : SwitchWorld).current = some "mixed".data →
      ensureModelRunningApp [⟨"r1".data, some "MiXed".data⟩] "mixed".data
        ⟨some "MiXed".data⟩ = (⟨some "MiXed".data⟩, false, none))) :=
  C4_ensure_running_amended [⟨"r1".data, some "MiXed".data⟩] "mixed".data
    ⟨some "MiXed".data⟩ (by decide)

/-! ### JSON values (Python objects fed to / produced by `json`)

Models the `json` standard library on the fragment the controller
exercises: null, booleans, integers, strings, arrays, objects (insertion
order preserved).  Fractional and exponent number forms are outside the
model — `pyJsonLoads` fails on them rather than mis-reading them. -/

inductive PyVal where
  | none
  | bool (b : Bool)
  | int (n : Int)
  | str (s : List Char)
  | list (xs : List PyVal)
  | dict (kvs : List (List Char × PyVal))

/-- JSON string escaping (quote and backslash; the inputs in scope carry
no control characters). -/
def jsonEscape : List Char → List Char
  | [] => []
  | c :: rest =>
    (if c = '"' then ['\\', '"']
     else if c = '\\' then ['\\', '\\']
     else [c]) ++ jsonEscape rest

mutual

/-- Python `json.dumps` with its default separators `", "` and `": "`. -/
def pyJsonDumps : PyVal → List Char
  | .none => "null".data
  | .bool true => "true".data
  | .bool false => "false".data
  | .int n => (toString n).data
  | .str s => '"' :: (jsonEscape s ++ ['"'])
  | .list xs => '[' :: (pyJsonDumpsItems xs ++ [']'])
  | .dict kvs => '\x7b' :: (pyJsonDumpsPairs kvs ++ ['\x7d'])

def pyJsonDumpsItems : List PyVal → List Char
  | [] => []
  | [x] => pyJsonDumps x
  | x :: y :: rest => pyJsonDumps x ++ ", ".data ++ pyJsonDumpsItems (y :: rest)

def pyJsonDumpsPairs : List (List Char × PyVal) → List Char
  | [] => []
  | [kv] => '"' :: (jsonEscape kv.1 ++ ['"'] ++ ": ".data ++ pyJsonDumps kv.2)
  | kv :: kv2 :: rest =>
      '"' :: (jsonEscape kv.1 ++ ['"'] ++ ": ".data ++ pyJsonDumps kv.2) ++
        ", ".data ++ pyJsonDumpsPairs (kv2 :: rest)

end

/-- JSON whitespace (`json.loads` skips space, tab, newline, return). -/
def isJsonWs (c : Char) : Bool := c == ' ' || c == '\t' || c == '\n' || c == '\r'

def skipWs (s : List Char) : List Char := s.dropWhile isJsonWs

/-- String body parser, positioned after the opening quote; returns the
decoded characters and the input after the closing quote. -/
def jlString : List Char → Option (List Char × List Char)
  | [] => Option.none
  | '"' :: rest => some ([], rest)
  | '\\' :: c :: rest =>
    let esc : Option Char :=
      if c = '"' then some '"'
      else if c = '\\' then some '\\'
      else if c = '/' then some '/'
      else if c = 'n' then some '\n'
      else if c = 't' then some '\t'
      else if c = 'r' then some '\r'
      else Option.none
    match esc with
    | Option.none => Option.none
    | some e => (jlString rest).map (fun p => (e :: p.1, p.2))
  | c :: rest => (jlString rest).map (fun p => (c :: p.1, p.2))

def jlNat (s : List Char) : Option (Nat × List Char) :=
  let digits := s.takeWhile (fun c => c.isDigit)
  if digits.isEmpty then Option.none
  else some (digits.foldl (fun acc c => acc * 10 + (c.toNat - '0'.toNat)) 0,
    s.dropWhile (fun c => c.isDigit))

def jlNumber (s : List Char) : Option (Int × List Char) :=
  match s with
  | '-' :: rest => (jlNat rest).map (fun p => (-(p.1 : Int), p.2))
  | _ => (jlNat s).map (fun p => ((p.1 : Int), p.2))

mutual

def jlValue : Nat → List Char → Option (PyVal × List Char)
  | 0, _ => Option.none
  | fuel + 1, s =>
    let s := skipWs s
    match s with
    | [] => Option.none
    | c :: rest =>
      if c = '"' then (jlString rest).map (fun p => (.str p.1, p.2))
      else if c = 'n' then
        if startsWithL "ull".data rest then some (.none, rest.drop 3) else Option.none
      else if c = 't' then
        if startsWithL "rue".data rest then some (.bool true, rest.drop 3) else Option.none
      else if c = 'f' then
        if startsWithL "alse".data rest then some (.bool false, rest.drop 4) else Option.none
      else if c = '[' then
        match skipWs rest with
        | ']' :: rest2 => some (.list [], rest2)
        | rest2 => (jlItems fuel rest2).map (fun p => (.list p.1, p.2))
      else if c = '\x7b' then
        match skipWs rest with
        | '\x7d' :: rest2 => some (.dict [], rest2)
        | rest2 => (jlPairs fuel rest2).map (fun p => (.dict p.1, p.2))
      else
        (jlNumber (c :: rest)).map (fun p => (.int p.1, p.2))

def jlItems : Nat → List Char → Option (List PyVal × List Char)
  | 0, _ => Option.none
  | fuel + 1, s =>
    match jlValue fuel s with
    | Option.none => Option.none
    | some (v, rest) =>
      match skipWs rest with
      | ',' :: rest2 => (jlItems fuel rest2).map (fun p => (v :: p.1, p.2))
      | ']' :: rest2 => some ([v], rest2)
      | _ => Option.none

def jlPairs : Nat → List Char → Option (List (List Char × PyVal) × List Char)
  | 0, _ => Option.none
  | fuel + 1, s =>
    match skipWs s with
    | '"' :: rest =>
      match jlString rest with
      | Option.none => Option.none
      | some (k, rest2) =>
        match skipWs rest2 with
        | ':' :: rest3 =>
          match jlValue fuel rest3 with
          | Option.none => Option.none
          | some (v, rest4) =>
            match skipWs rest4 with
            | ',' :: rest5 => (jlPairs fuel rest5).map (fun p => ((k, v) :: p.1, p.2))
            | '\x7d' :: rest5 => some ([(k, v)], rest5)
            | _ => Option.none
        | _ => Option.none
    | _ => Option.none

end

/-- Python `json.loads`: parse one value and require only whitespace to
follow. -/
def pyJsonLoads (s : List Char) : Option PyVal :=
  match jlValue (s.length + 1) s with
  | some (v, rest) => if (skipWs rest).isEmpty then some v else Option.none
  | Option.none => Option.none

/-! ### C6 — `_append_extra_args` and `_normalize_json_arg`
(`backends.py` lines 15-26 and 199-242) -/

mutual

/-- `_normalize_json_arg`: recursively rewrite `-` to `_` in every dict
key of a JSON payload. -/
def normalizeJsonArg : PyVal → PyVal
  | .dict kvs => .dict (normalizeJsonArgPairs kvs)
  | .list xs => .list (normalizeJsonArgItems xs)
  | v => v

def normalizeJsonArgItems : List PyVal → List PyVal
  | [] => []
  | x :: rest => normalizeJsonArg x :: normalizeJsonArgItems rest

def normalizeJsonArgPairs : List (List Char × PyVal) → List (List Char × PyVal)
  | [] => []
  | (k, v) :: rest =>
      (k.map (fun c => if c = '-' then '_' else c), normalizeJsonArg v) ::
        normalizeJsonArgPairs rest

end

/-- Keys consumed by the controller, not forwarded (`INTERNAL_KEYS`). -/
def internalKeys : List (List Char) :=
  ["venv_path".data, "env_vars".data, "cuda_visible_devices".data,
    "description".data, "tags".data, "status".data]

/-- `JSON_STRING_KEYS`. -/
def jsonStringKeys : List (List Char) :=
  ["speculative_config".data, "default_chat_template_kwargs".data]

/-- `key.replace("-", "_").lower()`. -/
def normKey (key : List Char) : List Char :=
  pyLower (key.map (fun c => if c = '-' then '_' else c))

/-- `f"--{key.replace('_', '-')}"`. -/
def kebabFlag (key : List Char) : List Char :=
  "--".data ++ key.map (fun c => if c = '_' then '-' else c)

/-- `_append_extra_args(cmd, extra_args)`: the body of the `for key, value
in extra_args.items()` loop, folded over the (insertion-ordered) items.
Note that `value is False` appends the bare flag exactly like `value is
True` unless the normalized key is `enable_expert_parallelism`; only
`None` omits the flag. -/
def appendOneExtraArg (cmd : List (List Char)) (key : List Char)
    (value : PyVal) : List (List Char) :=
  if normKey key ∈ internalKeys then cmd
  else
    let flag := kebabFlag key
    if flag ∈ cmd then cmd
    else
      match value with
      | .bool true => cmd ++ [flag]
      | .bool false =>
          if normKey key = "enable_expert_parallelism".data then cmd
          else cmd ++ [flag]
      | .none => cmd
      | .str s =>
          if normKey key ∈ jsonStringKeys then
            let v := pyStrip s
            if startsWithL "\x7b".data v || startsWithL "[".data v then
              match pyJsonLoads v with
              | some (PyVal.dict kvs) =>
                  cmd ++ [flag, pyJsonDumps (normalizeJsonArg (.dict kvs))]
              | some (PyVal.list xs) =>
                  cmd ++ [flag, pyJsonDumps (normalizeJsonArg (.list xs))]
              | _ => cmd ++ [flag, s]
            else cmd ++ [flag, s]
          else cmd ++ [flag, s]
      | .dict kvs => cmd ++ [flag, pyJsonDumps (normalizeJsonArg (.dict kvs))]
      | .list xs => cmd ++ [flag, pyJsonDumps (normalizeJsonArg (.list xs))]
      | .int n => cmd ++ [flag, (toString n).data]

def appendExtraArgs (cmd : List (List Char))
    (extraArgs : List (List Char × PyVal)) : List (List Char) :=
  extraArgs.foldl (fun c kv => appendOneExtraArg c kv.1 kv.2) cmd

/-- C6, as stated, is false: a boolean `False` extra arg does not omit the
flag — `_append_extra_args` appends the bare flag for `False` exactly as
for `True` (only the `enable_expert_parallelism` key is exempt). -/
theorem C6_extra_args_counterexample :
    appendExtraArgs [] [("enable_prefix_caching".data, PyVal.bool false)] =
      ["--enable-prefix-caching".data] ∧
    appendExtraArgs [] [("enable_prefix_caching".data, PyVal.bool false)] ≠ [] := by
  refine ⟨rfl, by decide⟩

/-- C6 (amended): field names map to flags by replacing `_` with `-`;
boolean `True` emits the flag alone; boolean `False` also emits the flag
alone, except for the `enable_expert_parallelism` key which is omitted;
`None` omits the flag entirely; and dict/list values are emitted as a
single JSON-encoded argument whose kebab-case inner keys are normalized
back to snake_case (`_normalize_json_arg`). -/
theorem C6_extra_args_amended (cmd : List (List Char)) (key : List Char)
    (hint : normKey key ∉ internalKeys) (hflag : kebabFlag key ∉ cmd) :
    appendExtraArgs cmd [(key, PyVal.bool true)] = cmd ++ [kebabFlag key] ∧
    (normKey key ≠ "enable_expert_parallelism".data →
      appendExtraArgs cmd [(key, PyVal.bool false)] = cmd ++ [kebabFlag key]) ∧
    (normKey key = "enable_expert_parallelism".data →
      appendExtraArgs cmd [(key, PyVal.bool false)] = cmd) ∧
    appendExtraArgs cmd [(key, PyVal.none)] = cmd ∧
    (∀ kvs, appendExtraArgs cmd [(key, PyVal.dict kvs)] =
      cmd ++ [kebabFlag key, pyJsonDumps (normalizeJsonArg (PyVal.dict kvs))]) ∧
    (∀ xs, appendExtraArgs cmd [(key, PyVal.list xs)] =
      cmd ++ [kebabFlag key, pyJsonDumps (normalizeJsonArg (PyVal.list xs))]) := by
  have hone : ∀ v, appendExtraArgs cmd [(key, v)] = appendOneExtraArg cmd key v :=
    fun _ => rfl
  refine ⟨?_, ?_, ?_, ?_, ?_, ?_⟩
  · rw [hone]
    unfold appendOneExtraArg
    rw [if_neg hint, if_neg hflag]
  · intro hk
    rw [hone]
    unfold appendOneExtraArg
    rw [if_neg hint, if_neg hflag]
    exact if_neg hk
  · intro hk
    rw [hone]
    unfold appendOneExtraArg
    rw [if_neg hint, if_neg hflag]
    exact if_pos hk
  · rw [hone]
    unfold appendOneExtraArg
    rw [if_neg hint, if_neg hflag]
  · intro kvs
    rw [hone]
    unfold appendOneExtraArg
    rw [if_neg hint, if_neg hflag]
  · intro xs
    rw [hone]
    unfold appendOneExtraArg
    rw [if_neg hint, if_neg hflag]

theorem C6_extra_args_amended_witness :
    (appendExtraArgs [] [("swap_space".data, PyVal.bool true)] =
        [] ++ [kebabFlag "swap_space".data] ∧
      (normKey "swap_space".data ≠ "enable_expert_parallelism".data →
        appendExtraArgs [] [("swap_space".data, PyVal.bool false)] =
          [] ++ [kebabFlag "swap_space".data]) ∧
      (normKey "swap_space".data = "enable_expert_parallelism".data →
        appendExtraArgs [] [("swap_space".data, PyVal.bool false)] = []) ∧
      appendExtraArgs [] [("swap_space".data, PyVal.none)] = [] ∧
      (∀ kvs, appendExtraArgs [] [("swap_space".data, PyVal.dict kvs)] =
        [] ++ [kebabFlag "swap_space".data,
          pyJsonDumps (normalizeJsonArg (PyVal.dict kvs))]) ∧
      (∀ xs, appendExtraArgs [] [("swap_space".data, PyVal.list xs)] =
        [] ++ [kebabFlag "swap_space".data,
          pyJsonDumps (normalizeJsonArg (PyVal.list xs))])) :=
  C6_extra_args_amended [] "swap_space".data (by decide) (by decide)

/-! ### C7 — lifetime counters (`store.py` lines 425-536, `app.py`
`broadcast_updates` lines 192-304)

The SQLite-backed `LifetimeMetricsStore` is modelled as a total map from
key to value; `REAL` arithmetic is modelled exactly over `ℚ` (the loop
only ever adds). -/

/-- The durable key→value table of `LifetimeMetricsStore`. -/
def KVStore := List Char → ℚ

/-- `LifetimeMetricsStore.increment(key, delta)` (lines 492-505): upsert
`value = value + delta`, then read back and return the stored value. -/
def storeIncrement (m : KVStore) (k : List Char) (d : ℚ) : KVStore × ℚ :=
  let nv := m k + d
  (fun k' => if k' = k then nv else m k', nv)

/-- What one `broadcast_updates` iteration observes: the elapsed wall time
since the previous power sample, the summed GPU power draw, whether a
backend process is running, and — when the `/metrics` scrape succeeded —
the scraped `generation_tokens_total + prompt_tokens_total` and summed
`request_success_total` counters. -/
structure TickObsM where
  elapsedSeconds : ℚ
  powerSum : ℚ
  running : Bool
  scrape : Option (ℚ × ℚ)

/-- The loop-local `last_tokens_total` / `last_requests_total`. -/
structure LoopState where
  lastTokens : ℚ
  lastRequests : ℚ

/-- `app.py` lines 219-228: accumulate energy (`power · elapsed / 3600`
Wh) when `0 < elapsed < 10`, and uptime only while a backend runs. -/
def energyUptimeStep (life : KVStore) (obs : TickObsM) : KVStore :=
  if 0 < obs.elapsedSeconds ∧ obs.elapsedSeconds < 10 then
    let life1 := (storeIncrement life "energy_wh".data
      (obs.powerSum * obs.elapsedSeconds / 3600)).1
    if obs.running then
      (storeIncrement life1 "uptime_seconds".data obs.elapsedSeconds).1
    else life1
  else life

/-- `app.py` lines 260-270: add the token and request deltas to the
lifetime store only when the scraped counter exceeds the loop-local last
value (a backend restart makes the scraped counter smaller and
contributes nothing that tick), then advance the last values. -/
def tokenDeltaStep (st : LoopState) (life : KVStore) (curTok curReq : ℚ) :
    LoopState × KVStore :=
  let p1 :=
    if st.lastTokens < curTok then
      ((storeIncrement life "tokens_total".data (curTok - st.lastTokens)).1, curTok)
    else (life, st.lastTokens)
  let p2 :=
    if st.lastRequests < curReq then
      ((storeIncrement p1.1 "requests_total".data (curReq - st.lastRequests)).1, curReq)
    else (p1.1, st.lastRequests)
  (⟨p1.2, p2.2⟩, p2.1)

/-- One `broadcast_updates` iteration.  With no backend running the
loop-local lasts reset to 0 (lines 284-287); a failed scrape leaves both
the store and the lasts untouched (`except: pass`). -/
def metricsTick (st : LoopState) (life : KVStore) (obs : TickObsM) :
    LoopState × KVStore :=
  let life1 := energyUptimeStep life obs
  if obs.running then
    match obs.scrape with
    | none => (st, life1)
    | some (t, r) => tokenDeltaStep st life1 t r
  else (⟨0, 0⟩, life1)

/-- A tick of the loop, or a controller restart (a fresh
`broadcast_updates` with `last_tokens_total = last_requests_total = 0`
over the same durable store). -/
inductive LoopEvent where
  | tick (obs : TickObsM)
  | restart

/-- A run of the metrics loop across ticks and controller restarts. -/
def metricsRun (st : LoopState) (life : KVStore) :
    List LoopEvent → LoopState × KVStore
  | [] => (st, life)
  | .tick obs :: rest =>
      let p := metricsTick st life obs
      metricsRun p.1 p.2 rest
  | .restart :: rest => metricsRun ⟨0, 0⟩ life rest

/-- The four lifetime counters the claim names. -/
def lifetimeKeys : List (List Char) :=
  ["tokens_total".data, "requests_total".data, "energy_wh".data,
    "uptime_seconds".data]

theorem storeIncrement_apply_le (m : KVStore) (k : List Char) (d : ℚ)
    (hd : 0 ≤ d) (k' : List Char) : m k' ≤ (storeIncrement m k d).1 k' := by
  unfold storeIncrement
  by_cases hk : k' = k
  · subst hk; simp; linarith
  · simp [hk]

theorem energyUptimeStep_le (life : KVStore) (obs : TickObsM)
    (hpow : 0 ≤ obs.powerSum) (k : List Char) :
    life k ≤ energyUptimeStep life obs k := by
  unfold energyUptimeStep
  by_cases hel : 0 < obs.elapsedSeconds ∧ obs.elapsedSeconds < 10
  · rw [if_pos hel]
    have he : (0 : ℚ) ≤ obs.powerSum * obs.elapsedSeconds / 3600 := by
      have := mul_nonneg hpow (le_of_lt hel.1)
      positivity
    have h1 := storeIncrement_apply_le life "energy_wh".data
      (obs.powerSum * obs.elapsedSeconds / 3600) he k
    cases hrun : obs.running
    · simpa [hrun] using h1
    · have h2 := storeIncrement_apply_le
        (storeIncrement life "energy_wh".data
          (obs.powerSum * obs.elapsedSeconds / 3600)).1
        "uptime_seconds".data obs.elapsedSeconds (le_of_lt hel.1) k
      simp only [hrun]
      exact le_trans h1 h2
  · rw [if_neg hel]

theorem tokenDeltaStep_le (st : LoopState) (life : KVStore)
    (curTok curReq : ℚ) (k : List Char) :
    life k ≤ (tokenDeltaStep st life curTok curReq).2 k := by
  unfold tokenDeltaStep
  by_cases h1 : st.lastTokens < curTok
  · have hd1 : (0 : ℚ) ≤ curTok - st.lastTokens := by linarith
    have s1 := storeIncrement_apply_le life "tokens_total".data
      (curTok - st.lastTokens) hd1 k
    by_cases h2 : st.lastRequests < curReq
    · have hd2 : (0 : ℚ) ≤ curReq - st.lastRequests := by linarith
      have s2 := storeIncrement_apply_le
        (storeIncrement life "tokens_total".data (curTok - st.lastTokens)).1
        "requests_total".data (curReq - st.lastRequests) hd2 k
      simp only [if_pos h1, if_pos h2]
      exact le_trans s1 s2
    · simp only [if_pos h1, if_neg h2]
      exact s1
  · by_cases h2 : st.lastRequests < curReq
    · have hd2 : (0 : ℚ) ≤ curReq - st.lastRequests := by linarith
      have s2 := storeIncrement_apply_le life "requests_total".data
        (curReq - st.lastRequests) hd2 k
      simp only [if_neg h1, if_pos h2]
      exact s2
    · simp only [if_neg h1, if_neg h2]
      exact le_refl _

theorem metricsTick_le (st : LoopState) (life : KVStore) (obs : TickObsM)
    (hpow : 0 ≤ obs.powerSum) (k : List Char) :
    life k ≤ (metricsTick st life obs).2 k := by
  unfold metricsTick
  have h1 := energyUptimeStep_le life obs hpow k
  cases hrun : obs.running
  · simpa [hrun] using h1
  · cases hscrape : obs.scrape with
    | none => simpa [hrun, hscrape] using h1
    | some p =>
        have h2 := tokenDeltaStep_le st (energyUptimeStep life obs) p.1 p.2 k
        simp only [hrun, hscrape]
        exact le_trans h1 h2

theorem metricsRun_le (events : List LoopEvent) :
    ∀ (st : LoopState) (life : KVStore),
      (∀ obs, LoopEvent.tick obs ∈ events → 0 ≤ obs.powerSum) →
      ∀ k, life k ≤ (metricsRun st life events).2 k := by
  induction events with
  | nil => intro st life _ k; exact le_refl _
  | cons ev rest ih =>
      intro st life hpow k
      cases ev with
      | tick obs =>
          have hobs : 0 ≤ obs.powerSum := hpow obs (List.mem_cons_self _ _)
          have hrest : ∀ o, LoopEvent.tick o ∈ rest → 0 ≤ o.powerSum :=
            fun o ho => hpow o (List.mem_cons_of_mem _ ho)
          have h1 := metricsTick_le st life obs hobs k
          have h2 := ih (metricsTick st life obs).1 (metricsTick st life obs).2 hrest k
          simpa [metricsRun] using le_trans h1 h2
      | restart =>
          have hrest : ∀ o, LoopEvent.tick o ∈ rest → 0 ≤ o.powerSum :=
            fun o ho => hpow o (List.mem_cons_of_mem _ ho)
          simpa [metricsRun] using ih ⟨0, 0⟩ life hrest k

/-- C7: over any interleaving of metrics-loop ticks and controller
restarts on the same durable store, `tokens_total`, `requests_total`,
`energy_wh` and `uptime_seconds` never decrease (GPU power readings are
non-negative; all other deltas the loop adds are non-negative by the
`>` guards), and `LifetimeMetricsStore.increment` adds the delta and
returns exactly the newly stored value. -/
theorem C7_lifetime_counters_monotone (events : List LoopEvent)
    (life : KVStore) (st : LoopState)
    (hpow : ∀ obs, LoopEvent.tick obs ∈ events → 0 ≤ obs.powerSum) :
    (∀ k, k ∈ lifetimeKeys → life k ≤ (metricsRun st life events).2 k) ∧
    (∀ (m : KVStore) (k : List Char) (d : ℚ),
      (storeIncrement m k d).2 = m k + d ∧
      (storeIncrement m k d).1 k = m k + d) := by
  constructor
  · intro k _
    exact metricsRun_le events st life hpow k
  · intro m k d
    constructor
    · rfl
    · simp [storeIncrement]

theorem C7_lifetime_counters_monotone_witness :
    ((∀ k, k ∈ lifetimeKeys →
      (fun _ => (0 : ℚ)) k ≤
        (metricsRun ⟨0, 0⟩ (fun _ => (0 : ℚ))
          [LoopEvent.tick ⟨1, 250, true, some (100, 3)⟩, LoopEvent.restart,
            LoopEvent.tick ⟨1, 250, true, some (40, 1)⟩]).2 k) ∧
    (∀ (m : KVStore) (k : List Char) (d : ℚ),
      (storeIncrement m k d).2 = m k + d ∧
      (storeIncrement m k d).1 k = m k + d)) :=
  C7_lifetime_counters_monotone
    [LoopEvent.tick ⟨1, 250, true, some (100, 3)⟩, LoopEvent.restart,
      LoopEvent.tick ⟨1, 250, true, some (40, 1)⟩]
    (fun _ => (0 : ℚ)) ⟨0, 0⟩
    (by
      intro obs hmem
      simp only [List.mem_cons, List.mem_singleton] at hmem
      rcases hmem with h | h | h
      · cases LoopEvent.tick.inj h; norm_num
      · exact absurd h (by intro hc; cases hc)
      · rcases h with h | h
        · cases LoopEvent.tick.inj h; norm_num
        · cases h)

/-! ### C9 — the streaming think-tag repair
(`routes/proxy.py` `parse_think_tags_from_content`, lines 232-287)

The repair rewrites each SSE delta in place, threading the per-request
`think_state["in_thinking"]` boolean through the chunk stream; the
`stream_response` wrapper (lines 367-385) only invokes it on chunks that
contain `<think>` or while `in_thinking` holds, passing other chunks
through untouched. -/

/-- Python `content.split(sep, 1)` when `sep` occurs: the text before and
after the first occurrence; `none` when `sep` does not occur. -/
def splitOnce (sep : List Char) : List Char → Option (List Char × List Char)
  | [] => if startsWithL sep [] then some ([], []) else Option.none
  | c :: rest =>
    if startsWithL sep (c :: rest) then some ([], (c :: rest).drop sep.length)
    else (splitOnce sep rest).map (fun p => (c :: p.1, p.2))

/-- Python `remaining.strip() or None`. -/
def stripOrNone (s : List Char) : Option (List Char) :=
  let t := pyStrip s
  if t.isEmpty then Option.none else some t

/-- The two delta fields the repair reads and writes. -/
structure DeltaM where
  content : Option (List Char)
  reasoningContent : Option (List Char)
deriving DecidableEq

/-- Python truthiness of `delta.get('reasoning_content')`. -/
def reasoningTruthy (d : DeltaM) : Bool :=
  match d.reasoningContent with
  | some r => !r.isEmpty
  | Option.none => false

/-- The per-delta body of `parse_think_tags_from_content`: returns the
updated `in_thinking` state and the rewritten delta. -/
def processThinkDelta (st : Bool) (d : DeltaM) : Bool × DeltaM :=
  match d.content with
  | Option.none => (st, d)
  | some content =>
    if content.isEmpty then (st, d)
    else if reasoningTruthy d then (st, d)
    else if containsSub "</think>".data content &&
        !containsSub "<think>".data content && !st then
      match splitOnce "</think>".data content with
      | some (reasoning, remaining) =>
          (st, ⟨stripOrNone remaining, some reasoning⟩)
      | Option.none => (st, d)
    else if containsSub "<think>".data content then
      match splitOnce "<think>".data content with
      | some (before, after) =>
          if containsSub "</think>".data after then
            match splitOnce "</think>".data after with
            | some (reasoning, remaining) =>
                (false, ⟨stripOrNone (before ++ remaining), some reasoning⟩)
            | Option.none => (true, d)
          else (true, ⟨stripOrNone before, some after⟩)
      | Option.none => (st, d)
    else if st then
      if containsSub "</think>".data content then
        match splitOnce "</think>".data content with
        | some (reasoning, remaining) =>
            (false, ⟨stripOrNone remaining, some reasoning⟩)
        | Option.none => (st, d)
      else (st, ⟨Option.none, some content⟩)
    else (st, d)

/-- The repair threaded over a stream of deltas in arrival order. -/
def processThinkStream (st : Bool) : List DeltaM → Bool × List DeltaM
  | [] => (st, [])
  | d :: rest =>
    let p := processThinkDelta st d
    let q := processThinkStream p.1 rest
    (q.1, p.2 :: q.2)

/-- A delta whose content carries neither `<think>` nor `</think>`. -/
def tagFree (d : DeltaM) : Bool :=
  match d.content with
  | some c => !containsSub "<think>".data c && !containsSub "</think>".data c
  | Option.none => true

theorem processThinkDelta_tagFree (d : DeltaM) (h : tagFree d = true) :
    processThinkDelta false d = (false, d) := by
  unfold processThinkDelta
  cases hc : d.content with
  | none => rfl
  | some content =>
      have hfree := h
      unfold tagFree at hfree
      rw [hc] at hfree
      have hfree' : (!containsSub "<think>".data content &&
          !containsSub "</think>".data content) = true := hfree
      have hopen : containsSub "<think>".data content = false := by
        cases hct : containsSub "<think>".data content
        · rfl
        · rw [hct] at hfree'; simp at hfree'
      have hclose : containsSub "</think>".data content = false := by
        cases hct : containsSub "</think>".data content
        · rfl
        · rw [hct] at hfree'; simp at hfree'
      by_cases hemp : content.isEmpty
      · simp [hemp]
      · by_cases hrt : reasoningTruthy d = true
        · simp [hemp, hrt]
        · simp [hemp, hrt, hopen, hclose]

/-- C9: over a stream whose delta contents contain no `<think>` or
`</think>` tags, starting (and remaining) with `in_thinking = false`, the
think-tag repair is the identity: every delta's `content` and
`reasoning_content` are left unchanged and the state stays `false` (the
`stream_response` wrapper then re-serializes the unmodified deltas, so
the output is byte-identical to the input). -/
theorem C9_think_repair_identity (ds : List DeltaM)
    (h : ∀ d, d ∈ ds → tagFree d = true) :
    processThinkStream false ds = (false, ds) := by
  induction ds with
  | nil => rfl
  | cons d rest ih =>
      have hd := processThinkDelta_tagFree d (h d (List.mem_cons_self _ _))
      have hrest := ih (fun d' hd' => h d' (List.mem_cons_of_mem _ hd'))
      simp [processThinkStream, hd, hrest]

theorem C9_think_repair_identity_witness :
    processThinkStream false
      [⟨some "Hello".data, Option.none⟩,
        ⟨Option.none, some "prior reasoning".data⟩,
        ⟨some " world".data, some "".data⟩] =
    (false,
      [⟨some "Hello".data, Option.none⟩,
        ⟨Option.none, some "prior reasoning".data⟩,
        ⟨some " world".data, some "".data⟩]) :=
  C9_think_repair_identity
    [⟨some "Hello".data, Option.none⟩,
      ⟨Option.none, some "prior reasoning".data⟩,
      ⟨some " world".data, some "".data⟩]
    (by decide)

/-! ### C5 — cancellation inside `launch`
(`routes/lifecycle.py` lines 134-261, the body under `_switch_lock`)

The environment records what each effectful step would have observed:
the cancel flag at the post-evict check, the `launch_model` outcome, and
per readiness-loop iteration the cancel flag, `psutil.pid_exists` and
the `/health` answer.  The emitted `launch_progress` stages and the
process-mutating actions are collected as lists. -/

/-- `launch_progress` stages. -/
inductive Stage where
  | evicting
  | launching
  | waiting
  | cancelled
  | ready
  | error
deriving DecidableEq

/-- Process-mutating actions of the launch body.  `killTree pid` is the
cancel branch's `proc.children(recursive=True)` kill loop followed by
`proc.kill()` (lines 174-181; its `except psutil.NoSuchProcess: pass`
only fires when the pid is already gone, and the attempt is recorded
regardless); `killProcessForce pid` is the timeout branch's
`kill_process(pid, force=True)` (line 235). -/
inductive LaunchAction where
  | evict
  | spawnProc
  | killTree (pid : Nat)
  | killProcessForce (pid : Nat)
deriving DecidableEq

/-- One iteration's observations: the cancel flag at the loop head,
process existence, and the health probe. -/
structure LaunchTick where
  cancelSet : Bool
  pidExists : Bool
  healthOk : Bool

/-- The whole launch environment. -/
structure LaunchEnv where
  cancelAtPostEvict : Bool
  spawn : Option Nat
  ticks : List LaunchTick

/-- The `LaunchResult` fields the claim is about. -/
structure LaunchResultM where
  success : Bool
  pid : Option Nat
deriving DecidableEq

/-- The readiness loop (lines 168-254): each iteration checks the cancel
signal first (emit `cancelled`, kill the pid and its descendant tree,
return failure), then crash (`break` into the `error` return), then
health (`break` into the `ready` return); otherwise it emits `waiting`
and sleeps.  An exhausted time budget force-kills the pid and returns the
timeout `error`. -/
def launchLoop (pid : Nat) :
    List LaunchTick → List Stage × List LaunchAction × LaunchResultM
  | [] => ([.error], [.killProcessForce pid], ⟨false, Option.none⟩)
  | t :: rest =>
    if t.cancelSet then ([.cancelled], [.killTree pid], ⟨false, Option.none⟩)
    else if !t.pidExists then ([.error], [], ⟨false, Option.none⟩)
    else if t.healthOk then ([.ready], [], ⟨true, some pid⟩)
    else
      let p := launchLoop pid rest
      (.waiting :: p.1, p.2.1, p.2.2)

/-- The launch body once `_switch_lock` is held (lines 135-254): emit
`evicting`, force-evict, then the post-evict cancel check (emit
`cancelled`, return failure, nothing spawned yet); emit `launching` and
spawn (an error result on spawn failure); emit `waiting` and run the
readiness loop. -/
def launchBody (env : LaunchEnv) :
    List Stage × List LaunchAction × LaunchResultM :=
  if env.cancelAtPostEvict then
    ([.evicting, .cancelled], [.evict], ⟨false, Option.none⟩)
  else
    match env.spawn with
    | Option.none =>
        ([.evicting, .launching, .error], [.evict, .spawnProc], ⟨false, Option.none⟩)
    | some pid =>
        let p := launchLoop pid env.ticks
        (.evicting :: .launching :: .waiting :: p.1,
          .evict :: .spawnProc :: p.2.1, p.2.2)

/-- The cancel signal is observed at some readiness-loop tick: the first
iteration that exits the loop (cancel, crash or ready — in that checking
order) is a cancel one. -/
def cancelObservedAtTick : List LaunchTick → Bool
  | [] => false
  | t :: rest =>
    t.cancelSet || (t.pidExists && !t.healthOk && cancelObservedAtTick rest)

theorem launchLoop_cancelled (pid : Nat) (ticks : List LaunchTick)
    (h : cancelObservedAtTick ticks = true) :
    (launchLoop pid ticks).2.2 = ⟨false, Option.none⟩ ∧
    Stage.cancelled ∈ (launchLoop pid ticks).1 ∧
    LaunchAction.killTree pid ∈ (launchLoop pid ticks).2.1 := by
  induction ticks with
  | nil => simp [cancelObservedAtTick] at h
  | cons t rest ih =>
      unfold cancelObservedAtTick at h
      cases hcan : t.cancelSet with
      | true =>
          refine ⟨?_, ?_, ?_⟩ <;> simp [launchLoop, hcan]
      | false =>
          rw [hcan] at h
          simp only [Bool.false_or, Bool.and_eq_true, Bool.not_eq_true'] at h
          obtain ⟨⟨hex, hhe⟩, hrest⟩ := h
          have hi := ih hrest
          refine ⟨?_, ?_, ?_⟩ <;>
            simp [launchLoop, hcan, hex, hhe, hi.1, hi.2.1, hi.2.2]

/-- C5: whenever the launch's cancel signal is observed — at the
post-evict check or at any readiness-wait tick — the launch returns the
failure result (never success), emits a `cancelled` launch-progress
event, and, when a child was already spawned (the tick case), records
the force-kill of the spawned pid together with its entire descendant
tree; in the post-evict case nothing has been spawned, so no
unsupervised child can remain. -/
theorem C5_cancel_kills_and_fails (env : LaunchEnv) (pid : Nat)
    (h : env.cancelAtPostEvict = true ∨
      (env.cancelAtPostEvict = false ∧ env.spawn = some pid ∧
        cancelObservedAtTick env.ticks = true)) :
    (launchBody env).2.2 = ⟨false, Option.none⟩ ∧
    Stage.cancelled ∈ (launchBody env).1 ∧
    (env.cancelAtPostEvict = true →
      LaunchAction.spawnProc ∉ (launchBody env).2.1) ∧
    (env.cancelAtPostEvict = false →
      LaunchAction.killTree pid ∈ (launchBody env).2.1) := by
  rcases h with hpe | ⟨hpe, hspawn, hobs⟩
  · refine ⟨?_, ?_, ?_, ?_⟩
    · simp [launchBody, hpe]
    · simp [launchBody, hpe]
    · intro _; simp [launchBody, hpe]
    · intro hcontra; rw [hpe] at hcontra; cases hcontra
  · have hl := launchLoop_cancelled pid env.ticks hobs
    refine ⟨?_, ?_, ?_, ?_⟩
    · simp [launchBody, hpe, hspawn, hl.1]
    · simp [launchBody, hpe, hspawn]
      exact hl.2.1
    · intro hcontra; rw [hpe] at hcontra; cases hcontra
    · intro _
      simp [launchBody, hpe, hspawn]
      exact hl.2.2

theorem C5_cancel_kills_and_fails_witness :
    ((launchBody ⟨false, some 91, [⟨false, true, false⟩, ⟨true, true, false⟩]⟩).2.2 =
        ⟨false, Option.none⟩ ∧
      Stage.cancelled ∈
        (launchBody ⟨false, some 91, [⟨false, true, false⟩, ⟨true, true, false⟩]⟩).1 ∧
      ((⟨false, some 91, [⟨false, true, false⟩, ⟨true, true, false⟩]⟩ : LaunchEnv).cancelAtPostEvict = true →
        LaunchAction.spawnProc ∉
          (launchBody ⟨false, some 91, [⟨false, true, false⟩, ⟨true, true, false⟩]⟩).2.1) ∧
      ((⟨false, some 91, [⟨false, true, false⟩, ⟨true, true, false⟩]⟩ : LaunchEnv).cancelAtPostEvict = false →
        LaunchAction.killTree 91 ∈
          (launchBody ⟨false, some 91, [⟨false, true, false⟩, ⟨true, true, false⟩]⟩).2.1)) :=
  C5_cancel_kills_and_fails
    ⟨false, some 91, [⟨false, true, false⟩, ⟨true, true, false⟩]⟩ 91
    (Or.inr ⟨rfl, rfl, by decide⟩)

/-! ### C2 — the MCP tool-call parsers

Two parsers share (up to the closing tag) the Pattern-0 regex

  `<?use_mcp_tool>\s*<?server_name>([^<]*)</server_name>\s*<?tool_name>`
  `([^<]*)</tool_name>\s*<?arguments>\s*(\{.*?\})\s*</arguments>\s*`
  followed by `</use_mcp_tool>` (`routes/proxy.py` line 131) or
  `</use_mcp[_ ]?tool>` (`config/tool_call_handler.py` line 324),

applied with `re.findall(..., re.DOTALL)`.  On this pattern the regex is
deterministic up to two local choices, which the embedding reproduces
exactly: the greedy optional `<?` (try the literal after consuming `<`,
fall back to matching it in place), and the lazy `(\{.*?\})` (close at
the earliest `}` whose suffix completes the pattern).  Everything else
cannot backtrack: `[^<]*` is a greedy class that stops exactly at the
`<` its closing literal starts with, and `\s*` is greedy before literals
that begin with non-space characters. -/

/-- Consume an exact literal prefix. -/
def matchLit : List Char → List Char → Option (List Char)
  | [], s => some s
  | _ :: _, [] => Option.none
  | l :: ls, c :: cs => if l = c then matchLit ls cs else Option.none

/-- `<?lit`: the greedy optional `<` followed by the literal `lit`. -/
def optLtThen (lit : List Char) (s : List Char) : Option (List Char) :=
  match s with
  | [] => matchLit lit []
  | c :: rest =>
    if c = '<' then
      match matchLit lit rest with
      | some r => some r
      | Option.none => matchLit lit (c :: rest)
    else matchLit lit (c :: rest)

/-- `([^<]*)`: the greedy class capture up to the first `<`. -/
def captureNoLt : List Char → List Char × List Char
  | [] => ([], [])
  | c :: rest =>
    if c = '<' then ([], c :: rest)
    else
      let p := captureNoLt rest
      (c :: p.1, p.2)

/-- `\s*`: greedy whitespace before a non-space literal. -/
def dropWs (s : List Char) : List Char := s.dropWhile isPySpace

/-- The lazy `.*?\}` body, positioned after the opening `{`: at each `}`
first try to close the group and run the continuation `k`; only if that
fails does `.` (DOTALL) consume the `}` and the scan continue. -/
def lazyBraceAux (k : List Char → Option (List Char)) :
    List Char → Option (List Char × List Char)
  | [] => Option.none
  | c :: rest =>
    if c = '\x7d' then
      match k rest with
      | some a => some ([c], a)
      | Option.none => (lazyBraceAux k rest).map (fun p => (c :: p.1, p.2))
    else (lazyBraceAux k rest).map (fun p => (c :: p.1, p.2))

/-- `(\{.*?\})` followed by the continuation `k`; returns the captured
group (braces included) and `k`'s result. -/
def lazyBrace (k : List Char → Option (List Char)) (s : List Char) :
    Option (List Char × List Char) :=
  match s with
  | [] => Option.none
  | c :: rest =>
    if c = '\x7b' then (lazyBraceAux k rest).map (fun p => (c :: p.1, p.2))
    else Option.none

/-- `routes/proxy.py`'s closing tag `</use_mcp_tool>` (exact). -/
def proxyClosing (s : List Char) : Option (List Char) :=
  matchLit "</use_mcp_tool>".data s

/-- `tool_call_handler.py`'s closing tag `</use_mcp[_ ]?tool>`
(tolerating a space or a missing separator). -/
def handlerClosing (s : List Char) : Option (List Char) :=
  match matchLit "</use_mcp".data s with
  | Option.none => Option.none
  | some r =>
    match r with
    | [] => matchLit "tool>".data []
    | c :: r2 =>
      if c = '_' ∨ c = ' ' then
        match matchLit "tool>".data r2 with
        | some r3 => some r3
        | Option.none => matchLit "tool>".data (c :: r2)
      else matchLit "tool>".data (c :: r2)

/-- The pattern tail `\s*</arguments>\s*` followed by the closing-tag
matcher, used as the continuation of the lazy group. -/
def argsTail (closing : List Char → Option (List Char)) (r : List Char) :
    Option (List Char) :=
  match matchLit "</arguments>".data (dropWs r) with
  | Option.none => Option.none
  | some r2 => closing (dropWs r2)

/-- One anchored attempt of the Pattern-0 regex: the three captured
groups (server, tool, argument text with braces) and the input after the
match. -/
def mcpMatchAt (closing : List Char → Option (List Char)) (s : List Char) :
    Option ((List Char × List Char × List Char) × List Char) :=
  match optLtThen "use_mcp_tool>".data s with
  | Option.none => Option.none
  | some s1 =>
    match optLtThen "server_name>".data (dropWs s1) with
    | Option.none => Option.none
    | some s2 =>
      let ps := captureNoLt s2
      match matchLit "</server_name>".data ps.2 with
      | Option.none => Option.none
      | some s3 =>
        match optLtThen "tool_name>".data (dropWs s3) with
        | Option.none => Option.none
        | some s4 =>
          let pt := captureNoLt s4
          match matchLit "</tool_name>".data pt.2 with
          | Option.none => Option.none
          | some s5 =>
            match optLtThen "arguments>".data (dropWs s5) with
            | Option.none => Option.none
            | some s6 =>
              match lazyBrace (argsTail closing) (dropWs s6) with
              | Option.none => Option.none
              | some (argsGroup, rest) => some ((ps.1, pt.1, argsGroup), rest)

/-- `re.findall` scanning: try the anchored match at each position left
to right; emit the groups of every (non-overlapping) match and resume
after it.  Fuelled: each step consumes at least one character. -/
def mcpFindallFuel (closing : List Char → Option (List Char)) :
    Nat → List Char → List (List Char × List Char × List Char)
  | 0, _ => []
  | fuel + 1, s =>
    match mcpMatchAt closing s with
    | some (g, rest) => g :: mcpFindallFuel closing fuel rest
    | Option.none =>
      match s with
      | [] => []
      | _ :: tail => mcpFindallFuel closing fuel tail

def mcpFindall (closing : List Char → Option (List Char)) (s : List Char) :
    List (List Char × List Char × List Char) :=
  mcpFindallFuel closing (s.length + 1) s

/-- The `function` object of an emitted tool call.  The `id` field
(`call_` plus a fresh uuid fragment) and the `index`/`type` constants
are outside the model; the claim is about `function.name` and
`function.arguments`. -/
structure ToolCallM where
  name : List Char
  arguments : List Char
deriving DecidableEq

/-- Pattern 0 of `parse_tool_calls_from_content` (`routes/proxy.py` lines
130-145): one call per regex match with `name = tool_name.strip()` — the
captured server name is discarded — and `arguments = args_json.strip()`,
the raw matched text (no JSON round-trip).  When this stage matches
anything the function returns it immediately (line 144-145), so on
MCP-form content it is the whole function. -/
def parseToolCallsFromContentMcp (content : List Char) : List ToolCallM :=
  (mcpFindall proxyClosing content).map
    (fun g => ⟨pyStrip g.2.1, pyStrip g.2.2⟩)

/-- `_clean_think_tags_from_content`'s `re.sub(r'<think>', '', content)`,
fuelled (each step consumes at least one character). -/
def removeThinkFuel : Nat → List Char → List Char
  | 0, s => s
  | _ + 1, [] => []
  | fuel + 1, c :: rest =>
    if startsWithL "<think>".data (c :: rest) then
      removeThinkFuel fuel ((c :: rest).drop 7)
    else c :: removeThinkFuel fuel rest

/-- `_clean_think_tags_from_content` (`tool_call_handler.py` lines
290-303): strip every `<think>` occurrence, returning the content
untouched when none occurs. -/
def cleanThinkTagsFromContent (content : List Char) : List Char :=
  if containsSub "<think>".data content then
    removeThinkFuel (content.length + 1) content
  else content

/-- The repair path's `re.search(r'\{[^{}]*\}', args_json, re.DOTALL)`:
the leftmost brace-delimited run containing no inner braces. -/
def reSearchFlatBrace : List Char → Option (List Char)
  | [] => Option.none
  | c :: rest =>
    if c = '\x7b' then
      let inner := rest.takeWhile (fun ch => !(ch == '\x7b') && !(ch == '\x7d'))
      let rem := rest.dropWhile (fun ch => !(ch == '\x7b') && !(ch == '\x7d'))
      match rem with
      | d :: _ => if d = '\x7d' then some (c :: (inner ++ [d])) else reSearchFlatBrace rest
      | [] => reSearchFlatBrace rest
    else reSearchFlatBrace rest

/-- `f"{server}__{tool}" if server else tool` on the stripped captures
(`tool_call_handler.py` lines 334-336). -/
def handlerToolName (server tool : List Char) : List Char :=
  if (pyStrip server).isEmpty then pyStrip tool
  else pyStrip server ++ ("__".data ++ pyStrip tool)

/-- The per-match body of `ToolCallHandler._parse_tool_calls` Pattern 0
(lines 326-371): strip and think-clean the argument text, `json.loads`
it, and emit `name = server__tool` (or the bare tool when the stripped
server is empty) with the re-serialized `json.dumps` arguments; on a
decode error, attempt the flat-brace repair before giving up
(`continue`). -/
def parsedHandlerCall (server tool args : List Char) : Option ToolCallM :=
  let argsClean := cleanThinkTagsFromContent (pyStrip args)
  match pyJsonLoads argsClean with
  | some v => some ⟨handlerToolName server tool, pyJsonDumps v⟩
  | Option.none =>
    match reSearchFlatBrace args with
    | Option.none => Option.none
    | some repaired0 =>
      match pyJsonLoads (cleanThinkTagsFromContent repaired0) with
      | some v => some ⟨handlerToolName server tool, pyJsonDumps v⟩
      | Option.none => Option.none

/-- Pattern 0 of `ToolCallHandler._parse_tool_calls` (lines 305-374):
strip the content, clean stray `<think>` tags, run the regex, and emit
one call per match that JSON-parses.  When this stage emits anything the
function returns it immediately (lines 373-374), so on MCP-form content
it is the whole function. -/
def parseToolCallsHandlerMcp (content : List Char) : List ToolCallM :=
  let c := cleanThinkTagsFromContent (pyStrip content)
  (mcpFindall handlerClosing c).filterMap
    (fun g => parsedHandlerCall g.1 g.2.1 g.2.2)

/-- The canonical tight serialization of one MCP tool-call block, the
shape the spec's scenario feeds the parsers.  Spelled with each tag's
`<` split off and association to the right, to ease decomposition;
`mkMcpContent_spelled` below states the readable form, to which it is
definitionally equal. -/
def mkMcpContent (server tool args : List Char) : List Char :=
  ('<' :: "use_mcp_tool>".data) ++ (('<' :: "server_name>".data) ++ (server ++
    (('<' :: "/server_name>".data) ++ (('<' :: "tool_name>".data) ++ (tool ++
      (('<' :: "/tool_name>".data) ++ (('<' :: "arguments>".data) ++ (args ++
        (('<' :: "/arguments>".data) ++ ('<' :: "/use_mcp_tool>".data))))))))))

theorem mkMcpContent_spelled (server tool args : List Char) :
    mkMcpContent server tool args =
      "<use_mcp_tool>".data ++ ("<server_name>".data ++ (server ++
        ("</server_name>".data ++ ("<tool_name>".data ++ (tool ++
          ("</tool_name>".data ++ ("<arguments>".data ++ (args ++
            ("</arguments>".data ++ "</use_mcp_tool>".data))))))))) := rfl

theorem matchLit_append (lit r : List Char) : matchLit lit (lit ++ r) = some r := by
  induction lit with
  | nil => rfl
  | cons l ls ih => simp [matchLit, ih]

theorem optLtThen_tag (lit r : List Char) :
    optLtThen lit (('<' :: lit) ++ r) = some r := by
  show optLtThen lit ('<' :: (lit ++ r)) = some r
  simp [optLtThen, matchLit_append]

theorem dropWs_cons (c : Char) (r : List Char) (h : isPySpace c = false) :
    dropWs (c :: r) = c :: r := by
  simp [dropWs, List.dropWhile_cons, h]

theorem captureNoLt_append (xs r : List Char) (h : '<' ∉ xs) :
    captureNoLt (xs ++ ('<' :: r)) = (xs, '<' :: r) := by
  induction xs with
  | nil => simp [captureNoLt]
  | cons x xs' ih =>
      have hx : x ≠ '<' := fun hEq => h (hEq ▸ List.mem_cons_self x xs')
      have h' : '<' ∉ xs' := fun hm => h (List.mem_cons_of_mem x hm)
      simp [captureNoLt, hx, ih h']

theorem lazyBraceAux_tail (k : List Char → Option (List Char))
    (inner T a : List Char) (hin : '\x7d' ∉ inner) (hk : k T = some a) :
    lazyBraceAux k (inner ++ ('\x7d' :: T)) = some (inner ++ ['\x7d'], a) := by
  induction inner with
  | nil => simp [lazyBraceAux, hk]
  | cons c cs ih =>
      have hc : c ≠ '\x7d' := fun hEq => hin (hEq ▸ List.mem_cons_self c cs)
      have h' : '\x7d' ∉ cs := fun hm => hin (List.mem_cons_of_mem c hm)
      simp [lazyBraceAux, hc, ih h']

theorem lazyBrace_group (k : List Char → Option (List Char))
    (inner T a : List Char) (hin : '\x7d' ∉ inner) (hk : k T = some a) :
    lazyBrace k (('\x7b' :: (inner ++ ['\x7d'])) ++ T) =
      some ('\x7b' :: (inner ++ ['\x7d']), a) := by
  have hsh : ('\x7b' :: (inner ++ ['\x7d'])) ++ T = '\x7b' :: (inner ++ ('\x7d' :: T)) := by
    simp
  rw [hsh]
  simp [lazyBrace, lazyBraceAux_tail k inner T a hin hk]

theorem mcpFindallFuel_nil (closing : List Char → Option (List Char)) (fuel : Nat) :
    mcpFindallFuel closing fuel [] = [] := by
  cases fuel with
  | zero => rfl
  | succ n => rfl

theorem mcpFindall_single (closing : List Char → Option (List Char))
    (s : List Char) (g : List Char × List Char × List Char)
    (h : mcpMatchAt closing s = some (g, [])) : mcpFindall closing s = [g] := by
  unfold mcpFindall
  simp [mcpFindallFuel, h, mcpFindallFuel_nil]

theorem pyStrip_eq_self (s : List Char)
    (h1 : ∀ c, s.head? = some c → isPySpace c = false)
    (h2 : ∀ c, s.reverse.head? = some c → isPySpace c = false) :
    pyStrip s = s := by
  have hd : s.dropWhile isPySpace = s := by
    cases hs : s with
    | nil => rfl
    | cons a t =>
        have ha := h1 a (by rw [hs]; rfl)
        simp [List.dropWhile_cons, ha]
  have hrev : s.reverse.dropWhile isPySpace = s.reverse := by
    cases hr : s.reverse with
    | nil => simp [hr]
    | cons b t =>
        have hb := h2 b (by rw [hr]; rfl)
        simp [List.dropWhile_cons, hb]
  unfold pyStrip
  rw [hd, hrev, List.reverse_reverse]

theorem startsWithL_append (pat s r : List Char) (h : startsWithL pat s = true) :
    startsWithL pat (s ++ r) = true := by
  induction pat generalizing s with
  | nil => rfl
  | cons p ps ih =>
      cases s with
      | nil => exact absurd h (by simp [startsWithL])
      | cons c cs =>
          have h' := h
          simp only [startsWithL, Bool.and_eq_true, beq_iff_eq] at h'
          show startsWithL (p :: ps) (c :: (cs ++ r)) = true
          simp only [startsWithL, Bool.and_eq_true, beq_iff_eq]
          exact ⟨h'.1, ih cs h'.2⟩

theorem containsSub_nil_pat (s : List Char) : containsSub [] s = true := by
  cases s <;> simp [containsSub, startsWithL]

theorem containsSub_append_left (pat x y : List Char)
    (h : containsSub pat x = true) : containsSub pat (x ++ y) = true := by
  induction x with
  | nil =>
      cases pat with
      | nil => exact containsSub_nil_pat y
      | cons p ps => exact absurd h (by simp [containsSub, startsWithL])
  | cons c cs ih =>
      have h' := h
      simp only [containsSub, Bool.or_eq_true] at h'
      show containsSub pat (c :: (cs ++ y)) = true
      simp only [containsSub, Bool.or_eq_true]
      rcases h' with hs | hc
      · exact Or.inl (startsWithL_append pat (c :: cs) y hs)
      · exact Or.inr (ih hc)

theorem containsSub_append_right (pat x y : List Char)
    (h : containsSub pat y = true) : containsSub pat (x ++ y) = true := by
  induction x with
  | nil => simpa using h
  | cons c cs ih =>
      show containsSub pat (c :: (cs ++ y)) = true
      simp only [containsSub, Bool.or_eq_true]
      exact Or.inr ih

theorem containsSub_false_right (pat x y : List Char)
    (h : containsSub pat (x ++ y) = false) : containsSub pat y = false := by
  cases hc : containsSub pat y
  · rfl
  · rw [containsSub_append_right pat x y hc] at h; cases h

theorem containsSub_false_left (pat x y : List Char)
    (h : containsSub pat (x ++ y) = false) : containsSub pat x = false := by
  cases hc : containsSub pat x
  · rfl
  · rw [containsSub_append_left pat x y hc] at h; cases h

theorem revHead_append (X Y : List Char) (c : Char)
    (h : (Y.reverse).head? = some c) : ((X ++ Y).reverse).head? = some c := by
  rw [List.reverse_append]
  cases hr : Y.reverse with
  | nil => rw [hr] at h; exact absurd h (by simp)
  | cons b t => rw [hr] at h; simpa using h

theorem revHead_cons_append_close (inner : List Char) :
    (('\x7b' :: (inner ++ ['\x7d'])).reverse).head? = some '\x7d' := by
  rw [List.reverse_cons, List.reverse_append]
  rfl

theorem dropWs_lt_append (lit r : List Char) :
    dropWs (('<' :: lit) ++ r) = ('<' :: lit) ++ r :=
  dropWs_cons '<' (lit ++ r) (by decide)

theorem dropWs_lbrace_append (x r : List Char) :
    dropWs (('\x7b' :: x) ++ r) = ('\x7b' :: x) ++ r :=
  dropWs_cons '\x7b' (x ++ r) (by decide)

theorem captureNoLt_lt_append (xs lit r : List Char) (h : '<' ∉ xs) :
    captureNoLt (xs ++ (('<' :: lit) ++ r)) = (xs, ('<' :: lit) ++ r) :=
  captureNoLt_append xs (lit ++ r) h

theorem matchLit_close_server (r : List Char) :
    matchLit "</server_name>".data (('<' :: "/server_name>".data) ++ r) = some r :=
  matchLit_append "</server_name>".data r

theorem matchLit_close_tool (r : List Char) :
    matchLit "</tool_name>".data (('<' :: "/tool_name>".data) ++ r) = some r :=
  matchLit_append "</tool_name>".data r

theorem matchLit_close_arguments (r : List Char) :
    matchLit "</arguments>".data (('<' :: "/arguments>".data) ++ r) = some r :=
  matchLit_append "</arguments>".data r

/-- The anchored Pattern-0 match consumes a well-formed tight MCP block
exactly, capturing the three groups. -/
theorem mcpMatchAt_mk (closing : List Char → Option (List Char))
    (server tool inner : List Char)
    (hs : '<' ∉ server) (ht : '<' ∉ tool) (hin : '\x7d' ∉ inner)
    (hclos : closing "</use_mcp_tool>".data = some []) :
    mcpMatchAt closing (mkMcpContent server tool ('\x7b' :: (inner ++ ['\x7d']))) =
      some ((server, tool, '\x7b' :: (inner ++ ['\x7d'])), []) := by
  have hk : argsTail closing
      (('<' :: "/arguments>".data) ++ ('<' :: "/use_mcp_tool>".data)) = some [] := by
    unfold argsTail
    rw [dropWs_lt_append, matchLit_close_arguments]
    show closing (dropWs ('<' :: "/use_mcp_tool>".data)) = some []
    rw [dropWs_cons '<' _ (by decide)]
    exact hclos
  have h9 : lazyBrace (argsTail closing)
      (('\x7b' :: (inner ++ ['\x7d'])) ++
        (('<' :: "/arguments>".data) ++ ('<' :: "/use_mcp_tool>".data))) =
      some ('\x7b' :: (inner ++ ['\x7d']), []) :=
    lazyBrace_group (argsTail closing) inner
      (('<' :: "/arguments>".data) ++ ('<' :: "/use_mcp_tool>".data)) [] hin hk
  unfold mcpMatchAt mkMcpContent
  simp only [optLtThen_tag, dropWs_lt_append, dropWs_lbrace_append, matchLit_append,
    captureNoLt_lt_append server _ _ hs, captureNoLt_lt_append tool _ _ ht,
    matchLit_close_server, matchLit_close_tool, h9]

theorem mcpFindall_mk (closing : List Char → Option (List Char))
    (server tool inner : List Char)
    (hs : '<' ∉ server) (ht : '<' ∉ tool) (hin : '\x7d' ∉ inner)
    (hclos : closing "</use_mcp_tool>".data = some []) :
    mcpFindall closing (mkMcpContent server tool ('\x7b' :: (inner ++ ['\x7d']))) =
      [(server, tool, '\x7b' :: (inner ++ ['\x7d']))] :=
  mcpFindall_single closing _ _ (mcpMatchAt_mk closing server tool inner hs ht hin hclos)

theorem pyStrip_mkMcpContent (server tool args : List Char) :
    pyStrip (mkMcpContent server tool args) = mkMcpContent server tool args := by
  have hrevC : ((mkMcpContent server tool args).reverse).head? = some '>' := by
    unfold mkMcpContent
    apply revHead_append
    apply revHead_append
    apply revHead_append
    apply revHead_append
    apply revHead_append
    apply revHead_append
    apply revHead_append
    apply revHead_append
    apply revHead_append
    apply revHead_append
    rfl
  apply pyStrip_eq_self
  · intro c hc
    have h0 : (mkMcpContent server tool args).head? = some '<' := rfl
    rw [h0] at hc
    cases hc
    decide
  · intro c hc
    rw [hrevC] at hc
    cases hc
    decide

theorem pyStrip_braced (inner : List Char) :
    pyStrip ('\x7b' :: (inner ++ ['\x7d'])) = '\x7b' :: (inner ++ ['\x7d']) := by
  apply pyStrip_eq_self
  · intro c hc
    have h0 : (('\x7b' :: (inner ++ ['\x7d'])) : List Char).head? = some '\x7b' := rfl
    rw [h0] at hc
    cases hc
    decide
  · intro c hc
    rw [revHead_cons_append_close inner] at hc
    cases hc
    decide

theorem containsSub_mk_args (pat server tool args : List Char)
    (h : containsSub pat (mkMcpContent server tool args) = false) :
    containsSub pat args = false := by
  unfold mkMcpContent at h
  have t1 := containsSub_false_right pat _ _ h
  have t2 := containsSub_false_right pat _ _ t1
  have t3 := containsSub_false_right pat _ _ t2
  have t4 := containsSub_false_right pat _ _ t3
  have t5 := containsSub_false_right pat _ _ t4
  have t6 := containsSub_false_right pat _ _ t5
  have t7 := containsSub_false_right pat _ _ t6
  have t8 := containsSub_false_right pat _ _ t7
  exact containsSub_false_left pat _ _ t8

/-- C2, as stated, is false: on the spec's own scenario (server `exa`,
tool `search`), the controller-side `parse_tool_calls_from_content`
emits `function.name = "search"` — the captured server name is discarded
— and the raw matched argument text, not a JSON re-serialization; the
LiteLLM callback's `_parse_tool_calls` is the parser that emits
`"exa__search"`. -/
theorem C2_mcp_tool_calls_counterexample :
    parseToolCallsFromContentMcp
        (mkMcpContent "exa".data "search".data
          ('\x7b' :: ("\"q\": 1".data ++ ['\x7d']))) =
      [⟨"search".data, '\x7b' :: ("\"q\": 1".data ++ ['\x7d'])⟩] ∧
    parseToolCallsHandlerMcp
        (mkMcpContent "exa".data "search".data
          ('\x7b' :: ("\"q\": 1".data ++ ['\x7d']))) =
      [⟨"exa__search".data, '\x7b' :: ("\"q\": 1".data ++ ['\x7d'])⟩] ∧
    ("search".data : List Char) ≠ "exa__search".data := by
  refine ⟨by decide, by decide, by decide⟩

/-- C2 (amended): for every assistant content of the MCP XML tool-call
form, the LiteLLM callback parser (`ToolCallHandler._parse_tool_calls`)
emits one tool call per match with `function.name = "S__T"` (stripped; or
just `"T"` when the stripped `S` is empty — `handlerToolName`) and
`function.arguments` the JSON re-serialized from the parsed arguments
object, stripping stray `<think>` substrings before JSON-parsing; the
controller-side parser (`parse_tool_calls_from_content`) instead emits
one call per match whose `function.name` is the bare tool name `T` —
the server name is discarded — and whose `function.arguments` is the raw
matched argument text. -/
theorem C2_mcp_tool_calls_amended (server tool inner args : List Char) (v : PyVal)
    (hargs : args = '\x7b' :: (inner ++ ['\x7d']))
    (hs : '<' ∉ server) (ht : '<' ∉ tool) (hin : '\x7d' ∉ inner)
    (hparse : pyJsonLoads args = some v)
    (hthink : containsSub "<think>".data (mkMcpContent server tool args) = false) :
    parseToolCallsHandlerMcp (mkMcpContent server tool args) =
      [⟨handlerToolName server tool, pyJsonDumps v⟩] ∧
    parseToolCallsFromContentMcp (mkMcpContent server tool args) =
      [⟨pyStrip tool, args⟩] := by
  subst hargs
  have hstripA := pyStrip_braced inner
  have hA : containsSub "<think>".data ('\x7b' :: (inner ++ ['\x7d'])) = false :=
    containsSub_mk_args _ server tool _ hthink
  have hcleanA : cleanThinkTagsFromContent ('\x7b' :: (inner ++ ['\x7d'])) =
      '\x7b' :: (inner ++ ['\x7d']) := by
    simp [cleanThinkTagsFromContent, hA]
  have hstripC := pyStrip_mkMcpContent server tool ('\x7b' :: (inner ++ ['\x7d']))
  have hcleanC : cleanThinkTagsFromContent
      (mkMcpContent server tool ('\x7b' :: (inner ++ ['\x7d']))) =
      mkMcpContent server tool ('\x7b' :: (inner ++ ['\x7d'])) := by
    simp [cleanThinkTagsFromContent, hthink]
  have hcall : parsedHandlerCall server tool ('\x7b' :: (inner ++ ['\x7d'])) =
      some ⟨handlerToolName server tool, pyJsonDumps v⟩ := by
    unfold parsedHandlerCall
    simp only [hstripA, hcleanA, hparse]
  constructor
  · unfold parseToolCallsHandlerMcp
    simp only [hstripC, hcleanC,
      mcpFindall_mk handlerClosing server tool inner hs ht hin (by decide),
      List.filterMap_cons, hcall, List.filterMap_nil]
  · unfold parseToolCallsFromContentMcp
    simp only [mcpFindall_mk proxyClosing server tool inner hs ht hin (by decide),
      List.map_cons, List.map_nil, hstripA]

theorem C2_mcp_tool_calls_amended_witness :
    (parseToolCallsHandlerMcp
        (mkMcpContent "exa".data "search".data
          ('\x7b' :: ("\"q\": 1".data ++ ['\x7d']))) =
      [⟨handlerToolName "exa".data "search".data,
        pyJsonDumps (PyVal.dict [("q".data, PyVal.int 1)])⟩] ∧
    parseToolCallsFromContentMcp
        (mkMcpContent "exa".data "search".data
          ('\x7b' :: ("\"q\": 1".data ++ ['\x7d']))) =
      [⟨pyStrip "search".data, '\x7b' :: ("\"q\": 1".data ++ ['\x7d'])⟩]) :=
  C2_mcp_tool_calls_amended "exa".data "search".data "\"q\": 1".data
    ('\x7b' :: ("\"q\": 1".data ++ ['\x7d'])) (PyVal.dict [("q".data, PyVal.int 1)])
    rfl (by decide) (by decide) (by decide) rfl (by decide)

end VllmStudio
